import Mathlib

/-!
Verification of the covid plotter data-preparation pipeline.

The program (covid_plotter.ipynb) loads the NYT us-counties CSV into a
dataframe `df_full`, coerces its textual `date` column with
`pd.to_datetime`, and then aggregates:

  df_plot = df_full.loc[:, ['date', 'cases', 'deaths']]
              .groupby('date').agg('sum').reset_index()
  df_plot = df_plot.join(
              df_plot[['cases', 'deaths']].shift(fill_value=0)
                .add_prefix('cobweb_'))

We embed a dataframe as a list of records.  Dates are embedded as natural
numbers (any order-preserving encoding of calendar dates; the concrete
scenarios use the digits of the ISO date, e.g. 2020-01-21 ↦ 20200121).
`groupby('date')` in pandas (default sort=True) produces one group per
distinct key, keys sorted ascending; `agg('sum')` sums the remaining
columns; `reset_index` turns the key back into a column; `shift(fill_value=0)`
moves every row down by one, filling row 0 with 0; `join` aligns the shifted
columns positionally (both frames carry the same RangeIndex).
-/

/-- One row of the NYT us-counties CSV after date coercion: one record per
(county, date) with cumulative case and death counts. -/
structure RawRecord where
  date : Nat
  county : String
  state : String
  fips : Nat
  cases : Nat
  deaths : Nat
deriving DecidableEq

/-- One row of the aggregated frame `df_plot`: national totals for one date
together with the previous day's totals (the `cobweb_` columns). -/
structure DailyTotal where
  date : Nat
  cases : Nat
  deaths : Nat
  cobweb_cases : Nat
  cobweb_deaths : Nat
deriving DecidableEq

/-- Insert a date into a strictly ascending list of dates, keeping it
strictly ascending (no duplicate keys): the set of group keys built by
`groupby('date')`, which holds each distinct key once, sorted ascending. -/
def insertDate (d : Nat) : List Nat → List Nat
  | [] => [d]
  | x :: xs =>
    if d = x then x :: xs
    else if d < x then d :: x :: xs
    else x :: insertDate d xs

/-- The distinct dates of the table, ascending: the group keys of
`groupby('date')` with pandas' default sort=True. -/
def groupedDates (rows : List RawRecord) : List Nat :=
  rows.foldr (fun r acc => insertDate r.date acc) []

/-- Sum a numeric field over all rows sharing a given date: what
`agg('sum')` computes inside one group. -/
def sumOn (f : RawRecord → Nat) (rows : List RawRecord) (d : Nat) : Nat :=
  ((rows.filter (fun r => r.date == d)).map f).sum

/-- One row of `df_full.loc[:, ['date','cases','deaths']]
.groupby('date').agg('sum').reset_index()`. -/
structure SumRow where
  date : Nat
  cases : Nat
  deaths : Nat
deriving DecidableEq

/-- The grouped-and-summed frame: one row per distinct date, ascending,
with `cases` and `deaths` summed across all counties for that date. -/
def groupSum (rows : List RawRecord) : List SumRow :=
  (groupedDates rows).map
    (fun d => ⟨d, sumOn RawRecord.cases rows d, sumOn RawRecord.deaths rows d⟩)

/-- `shift(fill_value=0)` on one column: every value moves down one row,
row 0 receives the fill value 0, the last value falls off (the column keeps
its length). -/
def shiftFill (xs : List Nat) : List Nat :=
  (0 :: xs).dropLast

/-- The whole aggregation cell: group by date, sum, then `join` the two
shifted columns positionally (`add_prefix('cobweb_')` names them
`cobweb_cases` and `cobweb_deaths`). -/
def aggregate (rows : List RawRecord) : List DailyTotal :=
  let g := groupSum rows
  (g.zip ((shiftFill (g.map SumRow.cases)).zip (shiftFill (g.map SumRow.deaths)))).map
    (fun p => ⟨p.1.date, p.1.cases, p.1.deaths, p.2.1, p.2.2⟩)

/-- Recursive characterisation of the shifted join, used only in proofs:
carry the previous row's sums (initially the fill 0,0) down the list. -/
def attachGo (pc pd : Nat) : List SumRow → List DailyTotal
  | [] => []
  | s :: rest => ⟨s.date, s.cases, s.deaths, pc, pd⟩ :: attachGo s.cases s.deaths rest

/-- The three-row table of the spec's scenario: two counties reporting on
2020-01-21 and one on 2020-01-22 (county and fips values are immaterial to
the aggregation, which selects only date, cases, deaths). -/
def exampleRows : List RawRecord :=
  [⟨20200121, "a", "s", 1, 1, 0⟩,
   ⟨20200121, "b", "s", 2, 0, 0⟩,
   ⟨20200122, "a", "s", 1, 2, 1⟩]

/-- The column names of the raw frame `df_full` as read from the CSV. -/
def rawColumns : List String :=
  ["date", "county", "state", "fips", "cases", "deaths"]

/-- The columns kept by `df_full.loc[:, ['date', 'cases', 'deaths']]`. -/
def selectColumns : List String :=
  ["date", "cases", "deaths"]

/-- The non-key columns summed by `agg('sum')` after `groupby('date')`. -/
def summedColumns : List String :=
  ["cases", "deaths"]

/-- The columns of the grouped frame after `reset_index()`: the group key
comes back as the first column, followed by the aggregated columns. -/
def groupedColumns : List String :=
  "date" :: summedColumns

/-- The columns produced by `df_plot[['cases','deaths']].shift(fill_value=0)
.add_prefix('cobweb_')`. -/
def cobwebColumns : List String :=
  summedColumns.map (fun c => "cobweb_" ++ c)

/-- The columns of the final `df_plot` after the `join`: the grouped
columns followed by the shifted copies. -/
def dailyTotalColumns : List String :=
  groupedColumns ++ cobwebColumns

/-- The error taxonomy of the loader stage: the run aborts with the pandas
exception of the failing call, which the spec classifies as a retrieval
failure (`pd.read_csv(url)`) or a parse failure (`pd.to_datetime`). -/
inductive LoadError where
  | RetrievalError : LoadError
  | ParseError : LoadError
deriving DecidableEq

/-- One row of the CSV payload before date coercion: the `date` column is
still text. -/
structure CsvRow where
  date : String
  county : String
  state : String
  fips : Nat
  cases : Nat
  deaths : Nat
deriving DecidableEq

/-- `pd.to_datetime` applied to the whole `date` column, abstracted over
the per-value parser of the external library: it raises (here: returns
`ParseError`) as soon as any entry fails to coerce, and otherwise yields
the coerced column. -/
def toDatetimeColumn (parse : String → Option Nat) :
    List String → Except LoadError (List Nat)
  | [] => .ok []
  | s :: rest =>
    match parse s, toDatetimeColumn parse rest with
    | some d, .ok ds => .ok (d :: ds)
    | none, _ => .error .ParseError
    | some _, .error e => .error e

/-- The loader cell: `df_full = pd.read_csv(url)` (a payload of `none`
means the fetch or CSV read failed) followed by
`df_full['date'] = pd.to_datetime(df_full['date'])`. -/
def loadTable (parse : String → Option Nat) (payload : Option (List CsvRow)) :
    Except LoadError (List RawRecord) :=
  match payload with
  | none => .error .RetrievalError
  | some rows =>
    match toDatetimeColumn parse (rows.map CsvRow.date) with
    | .error e => .error e
    | .ok ds =>
      .ok ((rows.zip ds).map
        (fun p => ⟨p.2, p.1.county, p.1.state, p.1.fips, p.1.cases, p.1.deaths⟩))

/-- The notebook variables touched by the aggregation cell. -/
structure NotebookState where
  df_full : List RawRecord
  df_plot : List DailyTotal
deriving DecidableEq

/-- Running the aggregation cell: it rebinds `df_plot` from `df_full` and
touches nothing else. -/
def runAggregationCell (s : NotebookState) : NotebookState :=
  { s with df_plot := aggregate s.df_full }

/-- A concrete date parser standing in for the external `pd.to_datetime`
element conversion: it accepts exactly one ISO date string. -/
def isoJan21Only : String → Option Nat :=
  fun s => if s = "2020-01-21" then some 20200121 else none

/-- A one-row CSV payload whose date text is not coercible. -/
def badCsv : List CsvRow :=
  [⟨"not-a-date", "a", "s", 1, 1, 0⟩]

/-! ### Properties of the group-key list -/

lemma mem_insertDate (a d : Nat) (l : List Nat) :
    a ∈ insertDate d l ↔ a = d ∨ a ∈ l := by
  induction l with
  | nil => simp [insertDate]
  | cons x xs ih =>
    simp only [insertDate]
    split
    · rename_i hdx
      subst hdx
      simp [or_comm, or_assoc, eq_comm]
    · split
      · simp
      · simp [ih]
        tauto

lemma insertDate_sorted (d : Nat) (l : List Nat) (hl : l.Sorted (· < ·)) :
    (insertDate d l).Sorted (· < ·) := by
  induction l with
  | nil => simp [insertDate]
  | cons x xs ih =>
    rw [List.sorted_cons] at hl
    simp only [insertDate]
    split
    · exact List.sorted_cons.mpr hl
    · split
      · rename_i hdx hlt
        refine List.sorted_cons.mpr ⟨?_, List.sorted_cons.mpr hl⟩
        intro b hb
        rcases List.mem_cons.mp hb with hb | hb
        · omega
        · exact lt_trans hlt (hl.1 b hb)
      · rename_i hdx hlt
        refine List.sorted_cons.mpr ⟨?_, ih hl.2⟩
        intro b hb
        rcases (mem_insertDate b d xs).mp hb with hb | hb
        · omega
        · exact hl.1 b hb

lemma insertDate_length (d : Nat) (l : List Nat) (hl : l.Sorted (· < ·)) :
    (insertDate d l).length = if d ∈ l then l.length else l.length + 1 := by
  induction l with
  | nil => simp [insertDate]
  | cons x xs ih =>
    rw [List.sorted_cons] at hl
    simp only [insertDate]
    split
    · rename_i hdx
      simp [hdx]
    · rename_i hdx
      split
      · rename_i hlt
        have hnot : d ∉ xs := fun h => absurd (hl.1 d h) (by omega)
        simp [List.mem_cons, hdx, hnot]
      · rename_i hlt
        have hne : d ≠ x := hdx
        simp only [List.length_cons, ih hl.2, List.mem_cons]
        by_cases hmem : d ∈ xs
        · simp [hmem, hne]
        · simp [hmem, hne]

lemma groupedDates_cons (r : RawRecord) (rows : List RawRecord) :
    groupedDates (r :: rows) = insertDate r.date (groupedDates rows) := rfl

lemma groupedDates_sorted (rows : List RawRecord) :
    (groupedDates rows).Sorted (· < ·) := by
  induction rows with
  | nil => simp [groupedDates]
  | cons r rows ih => exact insertDate_sorted r.date _ ih

lemma mem_groupedDates (d : Nat) (rows : List RawRecord) :
    d ∈ groupedDates rows ↔ d ∈ rows.map RawRecord.date := by
  induction rows with
  | nil => simp [groupedDates]
  | cons r rows ih =>
    rw [groupedDates_cons, mem_insertDate, ih]
    simp

lemma groupedDates_nodup (rows : List RawRecord) :
    (groupedDates rows).Nodup :=
  (groupedDates_sorted rows).nodup

lemma groupedDates_length (rows : List RawRecord) :
    (groupedDates rows).length = ((rows.map RawRecord.date).dedup).length := by
  induction rows with
  | nil => simp [groupedDates]
  | cons r rows ih =>
    rw [groupedDates_cons, insertDate_length r.date _ (groupedDates_sorted rows)]
    by_cases hmem : r.date ∈ rows.map RawRecord.date
    · rw [if_pos ((mem_groupedDates _ _).mpr hmem)]
      simp [List.dedup_cons_of_mem hmem, ih]
    · rw [if_neg (fun h => hmem ((mem_groupedDates _ _).mp h))]
      simp [List.dedup_cons_of_not_mem hmem, ih]

/-! ### The shifted join and its recursive characterisation -/

lemma shiftFill_length (xs : List Nat) : (shiftFill xs).length = xs.length := by
  simp [shiftFill]

lemma joinShift_eq_attachGo (g : List SumRow) (pc pd : Nat) :
    (g.zip (((pc :: g.map SumRow.cases).dropLast).zip
            ((pd :: g.map SumRow.deaths).dropLast))).map
        (fun p => (⟨p.1.date, p.1.cases, p.1.deaths, p.2.1, p.2.2⟩ : DailyTotal))
      = attachGo pc pd g := by
  induction g generalizing pc pd with
  | nil => simp [attachGo]
  | cons s rest ih =>
    have hc : (pc :: (s :: rest).map SumRow.cases).dropLast
        = pc :: ((s.cases :: rest.map SumRow.cases).dropLast) := by
      simp [List.dropLast]
    have hd : (pd :: (s :: rest).map SumRow.deaths).dropLast
        = pd :: ((s.deaths :: rest.map SumRow.deaths).dropLast) := by
      simp [List.dropLast]
    rw [hc, hd]
    simp only [List.zip_cons_cons, List.map_cons, attachGo]
    exact congrArg _ (ih s.cases s.deaths)

lemma aggregate_eq_attachGo (rows : List RawRecord) :
    aggregate rows = attachGo 0 0 (groupSum rows) := by
  rw [aggregate, shiftFill, shiftFill]
  exact joinShift_eq_attachGo (groupSum rows) 0 0

lemma attachGo_length (pc pd : Nat) (g : List SumRow) :
    (attachGo pc pd g).length = g.length := by
  induction g generalizing pc pd with
  | nil => rfl
  | cons s rest ih => simp [attachGo, ih]

lemma attachGo_map_date (pc pd : Nat) (g : List SumRow) :
    (attachGo pc pd g).map DailyTotal.date = g.map SumRow.date := by
  induction g generalizing pc pd with
  | nil => rfl
  | cons s rest ih => simp [attachGo, ih]

lemma attachGo_map_cases (pc pd : Nat) (g : List SumRow) :
    (attachGo pc pd g).map DailyTotal.cases = g.map SumRow.cases := by
  induction g generalizing pc pd with
  | nil => rfl
  | cons s rest ih => simp [attachGo, ih]

lemma attachGo_map_deaths (pc pd : Nat) (g : List SumRow) :
    (attachGo pc pd g).map DailyTotal.deaths = g.map SumRow.deaths := by
  induction g generalizing pc pd with
  | nil => rfl
  | cons s rest ih => simp [attachGo, ih]

lemma attachGo_mem (pc pd : Nat) (g : List SumRow) (t : DailyTotal)
    (ht : t ∈ attachGo pc pd g) :
    ∃ s ∈ g, t.date = s.date ∧ t.cases = s.cases ∧ t.deaths = s.deaths := by
  induction g generalizing pc pd with
  | nil => simp [attachGo] at ht
  | cons s rest ih =>
    rcases List.mem_cons.mp ht with h | h
    · exact ⟨s, List.mem_cons_self s rest, by rw [h]; exact ⟨rfl, rfl, rfl⟩⟩
    · obtain ⟨u, hu, he⟩ := ih s.cases s.deaths h
      exact ⟨u, List.mem_cons_of_mem s hu, he⟩

lemma attachGo_shift (g : List SumRow) (pc pd : Nat) (i : Nat)
    (h : i < (attachGo pc pd g).length) :
    (attachGo pc pd g)[i].cobweb_cases
        = (if i = 0 then pc else (attachGo pc pd g)[i - 1].cases) ∧
    (attachGo pc pd g)[i].cobweb_deaths
        = (if i = 0 then pd else (attachGo pc pd g)[i - 1].deaths) := by
  induction g generalizing pc pd i with
  | nil => simp [attachGo] at h
  | cons s rest ih =>
    match i with
    | 0 => exact ⟨rfl, rfl⟩
    | j + 1 =>
      have hj : j < (attachGo s.cases s.deaths rest).length := by
        simpa [attachGo] using h
      have := ih s.cases s.deaths j hj
      match j with
      | 0 =>
        simpa [attachGo] using this
      | k + 1 =>
        simpa [attachGo] using this

/-! ### Mass preservation of the group-by sum -/

lemma sumOn_nil (f : RawRecord → Nat) (d : Nat) : sumOn f [] d = 0 := rfl

lemma sumOn_cons (f : RawRecord → Nat) (r : RawRecord) (rows : List RawRecord)
    (d : Nat) :
    sumOn f (r :: rows) d = (if r.date = d then f r else 0) + sumOn f rows d := by
  simp only [sumOn, List.filter_cons]
  by_cases h : r.date = d
  · simp [h]
  · simp [h]

lemma sum_map_ite_zero (a c : Nat) (ds : List Nat) (ha : a ∉ ds) :
    (ds.map (fun d => if a = d then c else 0)).sum = 0 := by
  induction ds with
  | nil => rfl
  | cons d ds ih =>
    have hne : a ≠ d := fun h => ha (h ▸ List.mem_cons_self d ds)
    have hrest : a ∉ ds := fun h => ha (List.mem_cons_of_mem d h)
    simp [hne, ih hrest]

lemma sum_map_ite (a c : Nat) (ds : List Nat) (hnd : ds.Nodup) (ha : a ∈ ds) :
    (ds.map (fun d => if a = d then c else 0)).sum = c := by
  induction ds with
  | nil => simp at ha
  | cons d ds ih =>
    rw [List.nodup_cons] at hnd
    by_cases h : a = d
    · subst h
      simp [sum_map_ite_zero a c ds hnd.1]
    · rcases List.mem_cons.mp ha with h2 | h2
      · exact absurd h2 h
      · simp [h, ih hnd.2 h2]

lemma sum_map_add_fun (l : List Nat) (f g : Nat → Nat) :
    (l.map (fun x => f x + g x)).sum = (l.map f).sum + (l.map g).sum := by
  induction l with
  | nil => rfl
  | cons x xs ih =>
    simp only [List.map_cons, List.sum_cons, ih]
    omega

lemma sum_sumOn (f : RawRecord → Nat) (ds : List Nat) (rows : List RawRecord)
    (hnd : ds.Nodup) (hcov : ∀ r ∈ rows, r.date ∈ ds) :
    (ds.map (fun d => sumOn f rows d)).sum = (rows.map f).sum := by
  induction rows with
  | nil => simp [sumOn_nil]
  | cons r rows ih =>
    have h1 : (ds.map (fun d => sumOn f (r :: rows) d)).sum
        = (ds.map (fun d => if r.date = d then f r else 0)).sum
          + (ds.map (fun d => sumOn f rows d)).sum := by
      simp only [sumOn_cons]
      exact sum_map_add_fun ds _ _
    rw [List.map_cons, List.sum_cons, h1,
      sum_map_ite r.date (f r) ds hnd (hcov r (List.mem_cons_self r rows)),
      ih (fun u hu => hcov u (List.mem_cons_of_mem r hu))]

/-! ### Derived facts about the aggregated frame -/

lemma groupSum_map_date (rows : List RawRecord) :
    (groupSum rows).map SumRow.date = groupedDates rows := by
  unfold groupSum
  rw [List.map_map]
  exact List.map_id _

lemma groupSum_map_cases (rows : List RawRecord) :
    (groupSum rows).map SumRow.cases
      = (groupedDates rows).map (fun d => sumOn RawRecord.cases rows d) := by
  unfold groupSum
  rw [List.map_map]
  rfl

lemma groupSum_map_deaths (rows : List RawRecord) :
    (groupSum rows).map SumRow.deaths
      = (groupedDates rows).map (fun d => sumOn RawRecord.deaths rows d) := by
  unfold groupSum
  rw [List.map_map]
  rfl

lemma aggregate_map_date (rows : List RawRecord) :
    (aggregate rows).map DailyTotal.date = groupedDates rows := by
  rw [aggregate_eq_attachGo, attachGo_map_date, groupSum_map_date]

lemma aggregate_length_eq (rows : List RawRecord) :
    (aggregate rows).length = (groupedDates rows).length := by
  rw [aggregate_eq_attachGo, attachGo_length]
  simp [groupSum]

lemma toDatetimeColumn_error (parse : String → Option Nat) (ss : List String)
    (h : ∃ s ∈ ss, parse s = none) :
    toDatetimeColumn parse ss = .error .ParseError := by
  induction ss with
  | nil => simp at h
  | cons s rest ih =>
    obtain ⟨u, hu, hnone⟩ := h
    rcases List.mem_cons.mp hu with h1 | h1
    · subst h1
      simp only [toDatetimeColumn, hnone]
    · rw [toDatetimeColumn, ih ⟨u, h1, hnone⟩]
      cases hp : parse s <;> rfl

/-! ### Claim theorems -/

/-- Claim C1: in the DailyTotal table, for every row i > 0 the shifted
(cobweb) cases value of row i equals the summed cases value of row i-1,
and the shifted cases value of row 0 equals 0 as an explicit fill; the
same holds for deaths. -/
theorem aggregate_shifted_columns (rows : List RawRecord) (i : Nat)
    (h : i < (aggregate rows).length) :
    (aggregate rows)[i].cobweb_cases
        = (if i = 0 then 0 else (aggregate rows)[i - 1].cases) ∧
    (aggregate rows)[i].cobweb_deaths
        = (if i = 0 then 0 else (aggregate rows)[i - 1].deaths) := by
  have h2 : i < (attachGo 0 0 (groupSum rows)).length := by
    rwa [aggregate_eq_attachGo] at h
  have hgo := attachGo_shift (groupSum rows) 0 0 i h2
  simpa [aggregate_eq_attachGo] using hgo

/-- Witness for C1 at the scenario table: row 1's shifted values equal
row 0's summed values. -/
theorem aggregate_shifted_columns_witness :
    ((aggregate exampleRows).getD 1 ⟨0, 0, 0, 0, 0⟩).cobweb_cases
        = ((aggregate exampleRows).getD 0 ⟨0, 0, 0, 0, 0⟩).cases ∧
    ((aggregate exampleRows).getD 1 ⟨0, 0, 0, 0, 0⟩).cobweb_deaths
        = ((aggregate exampleRows).getD 0 ⟨0, 0, 0, 0, 0⟩).deaths := by
  have h : 1 < (aggregate exampleRows).length := by decide
  have hth := aggregate_shifted_columns exampleRows 1 h
  rw [List.getD_eq_getElem _ _ h, List.getD_eq_getElem _ _ (by omega : 0 < (aggregate exampleRows).length)]
  simpa using hth

/-- Claim C2: the sum of the cases column over the DailyTotal table equals
the sum of the cases column over the RawRecord table, and likewise for
deaths: the group-by-date aggregation preserves total mass. -/
theorem aggregate_mass_preserved (rows : List RawRecord) :
    ((aggregate rows).map DailyTotal.cases).sum = (rows.map RawRecord.cases).sum ∧
    ((aggregate rows).map DailyTotal.deaths).sum = (rows.map RawRecord.deaths).sum := by
  constructor
  · rw [aggregate_eq_attachGo, attachGo_map_cases, groupSum_map_cases]
    exact sum_sumOn RawRecord.cases _ rows (groupedDates_nodup rows)
      (fun r hr => (mem_groupedDates r.date rows).mpr
        (List.mem_map_of_mem RawRecord.date hr))
  · rw [aggregate_eq_attachGo, attachGo_map_deaths, groupSum_map_deaths]
    exact sum_sumOn RawRecord.deaths _ rows (groupedDates_nodup rows)
      (fun r hr => (mem_groupedDates r.date rows).mpr
        (List.mem_map_of_mem RawRecord.date hr))

/-- Claim C3: the DailyTotal table has exactly one row per distinct date of
the input (its row count is the number of distinct dates), and a date
appears in it exactly when some input row carries that date, so a date
absent from the source is never interpolated. -/
theorem aggregate_one_row_per_date (rows : List RawRecord) :
    (aggregate rows).length = ((rows.map RawRecord.date).dedup).length ∧
    ∀ d : Nat, (∃ t ∈ aggregate rows, t.date = d) ↔ d ∈ rows.map RawRecord.date := by
  constructor
  · rw [aggregate_length_eq, groupedDates_length]
  · intro d
    constructor
    · rintro ⟨t, ht, rfl⟩
      have hmem : t.date ∈ (aggregate rows).map DailyTotal.date :=
        List.mem_map_of_mem DailyTotal.date ht
      rw [aggregate_map_date] at hmem
      exact (mem_groupedDates _ _).mp hmem
    · intro hd
      have hmem : d ∈ (aggregate rows).map DailyTotal.date := by
        rw [aggregate_map_date]
        exact (mem_groupedDates _ _).mpr hd
      obtain ⟨t, ht, hte⟩ := List.mem_map.mp hmem
      exact ⟨t, ht, hte⟩

/-- Witness for C3 at the scenario table: date 20200121 occurs in the
source, hence some DailyTotal row carries it. -/
theorem aggregate_one_row_per_date_witness :
    ∃ t ∈ aggregate exampleRows, t.date = 20200121 :=
  ((aggregate_one_row_per_date exampleRows).2 20200121).mpr (by decide)

/-- Claim C4: the DailyTotal rows are ordered by date ascending (strictly,
since dates are distinct), and each row's cases and deaths equal the sum
of those fields over all input rows sharing its date. -/
theorem aggregate_sorted_and_sums (rows : List RawRecord) :
    ((aggregate rows).map DailyTotal.date).Sorted (· < ·) ∧
    ∀ t ∈ aggregate rows,
      t.cases = sumOn RawRecord.cases rows t.date ∧
      t.deaths = sumOn RawRecord.deaths rows t.date := by
  constructor
  · rw [aggregate_map_date]
    exact groupedDates_sorted rows
  · intro t ht
    rw [aggregate_eq_attachGo] at ht
    obtain ⟨s, hs, hdate, hcases, hdeaths⟩ := attachGo_mem 0 0 _ t ht
    obtain ⟨d, hdmem, rfl⟩ := List.mem_map.mp hs
    exact ⟨by rw [hcases, hdate], by rw [hdeaths, hdate]⟩

/-- Witness for C4 at the scenario table: the first output row sums the two
2020-01-21 county rows. -/
theorem aggregate_sorted_and_sums_witness :
    (⟨20200121, 1, 0, 0, 0⟩ : DailyTotal).cases
        = sumOn RawRecord.cases exampleRows (⟨20200121, 1, 0, 0, 0⟩ : DailyTotal).date ∧
    (⟨20200121, 1, 0, 0, 0⟩ : DailyTotal).deaths
        = sumOn RawRecord.deaths exampleRows (⟨20200121, 1, 0, 0, 0⟩ : DailyTotal).date :=
  (aggregate_sorted_and_sums exampleRows).2 ⟨20200121, 1, 0, 0, 0⟩ (by decide)

/-- Claim C5: on the spec's three-row scenario table the Aggregator
produces exactly the two-row DailyTotal table given in the spec. -/
theorem aggregate_scenario :
    aggregate exampleRows
      = [⟨20200121, 1, 0, 0, 0⟩, ⟨20200122, 2, 1, 1, 0⟩] := by
  decide

/-- Claim C6: the Aggregator is a deterministic pure function of its input
(equal inputs give equal outputs), and running the aggregation cell twice
leaves `df_plot` exactly as after the first run. -/
theorem aggregate_pure (rows1 rows2 : List RawRecord) (h : rows1 = rows2) :
    aggregate rows1 = aggregate rows2 ∧
    ∀ s : NotebookState,
      (runAggregationCell (runAggregationCell s)).df_plot
        = (runAggregationCell s).df_plot := by
  constructor
  · rw [h]
  · intro s
    rfl

/-- Witness for C6 at the scenario table. -/
theorem aggregate_pure_witness :
    (runAggregationCell (runAggregationCell ⟨exampleRows, []⟩)).df_plot
      = (runAggregationCell ⟨exampleRows, []⟩).df_plot :=
  (aggregate_pure exampleRows exampleRows rfl).2 ⟨exampleRows, []⟩

/-- Claim C7: the aggregated frame has exactly the five columns date,
cases, deaths, cobweb_cases, cobweb_deaths, and none of the remaining raw
columns (county, state, fips) appears in it. -/
theorem dailyTotalColumns_exact :
    dailyTotalColumns
        = ["date", "cases", "deaths", "cobweb_cases", "cobweb_deaths"] ∧
    "county" ∉ dailyTotalColumns ∧
    "state" ∉ dailyTotalColumns ∧
    "fips" ∉ dailyTotalColumns := by
  decide

/-- Claim C8: when the date column of a loaded table has an entry the
date parser cannot coerce, the loader fails with ParseError (not success
and not another error kind). -/
theorem loader_parse_error (parse : String → Option Nat) (rows : List CsvRow)
    (h : ∃ s ∈ rows.map CsvRow.date, parse s = none) :
    loadTable parse (some rows) = .error .ParseError := by
  have he := toDatetimeColumn_error parse (rows.map CsvRow.date) h
  have hstep : loadTable parse (some rows)
      = match toDatetimeColumn parse (rows.map CsvRow.date) with
        | .error e => Except.error e
        | .ok ds =>
          .ok ((rows.zip ds).map
            (fun p =>
              ⟨p.2, p.1.county, p.1.state, p.1.fips, p.1.cases, p.1.deaths⟩)) := rfl
  rw [hstep, he]

/-- Witness for C8: a one-row payload with an uncoercible date string. -/
theorem loader_parse_error_witness :
    loadTable isoJan21Only (some badCsv) = .error .ParseError :=
  loader_parse_error isoJan21Only badCsv ⟨"not-a-date", by decide, by decide⟩

/-- Claim C9: running the aggregation cell leaves the raw table `df_full`
unchanged: every field of every row is the same before and after. -/
theorem aggregation_preserves_raw (s : NotebookState) :
    (runAggregationCell s).df_full = s.df_full := rfl

/-- Claim C10: on the empty RawRecord table the Aggregator succeeds and
yields the empty DailyTotal table, with the five-column shape unchanged. -/
theorem aggregate_empty :
    aggregate ([] : List RawRecord) = [] ∧
    dailyTotalColumns
      = ["date", "cases", "deaths", "cobweb_cases", "cobweb_deaths"] := by
  decide
